import Mathlib

/-!
Verification of the `Evaluator` class in
`src/factual_scene_graph/evaluation/evaluator.py`.

The evaluator's external collaborators (the scene-graph parser, the
WordNet lemmatizer, the graph-format detector `is_graph_format`, the
symbol spacer `space_out_symbols_in_graph`, and the three scoring
backends `eval_set_match` / `eval_spice` / the soft-SPICE pipeline) are
consumed through narrow interfaces and live outside the evaluator
module; they are embedded here as function-valued fields of the
`Evaluator` structure, so every theorem quantifies over arbitrary
collaborator behaviour.

Python exceptions are modelled with `Except`:
  - `ValueError "Parser is required for non-graph candidate inputs."`
    (line 93) becomes `configurationError`;
  - the `assert` on the shape of `references` (lines 96-97) becomes
    `shapeError`;
  - `ValueError "Unknown evaluation method"` (line 67) becomes
    `unknownMethodError`;
  - calling `.parse` on `self.parser = None` (line 137) raises Python's
    `AttributeError`, modelled as `attributeError`.

To reason about which arguments the external parser is invoked on,
every function additionally returns the list of batches passed to
`self.parser.parse`, in call order; this log is empty exactly when the
parser is never invoked.
-/

/-- Errors that an `evaluate` call can raise. -/
inductive EvalError : Type
  /-- `ValueError` raised when candidates are not all graph format and no parser is configured (evaluator.py line 93). -/
  | configurationError : EvalError
  /-- `AssertionError` raised when some element of `references` is not a list (evaluator.py lines 96-97). -/
  | shapeError : EvalError
  /-- `ValueError` raised for a method name outside the dispatch dictionary (evaluator.py line 67). -/
  | unknownMethodError : EvalError
  /-- Python `AttributeError` raised by `None.parse(...)` when parsing is needed but `self.parser is None` (evaluator.py line 137). -/
  | attributeError : EvalError
deriving DecidableEq, Repr

/-- An element of the caller-supplied `references` argument: in Python it may
be a list of strings (the intended shape) or any other value, here
represented by a bare string (the shape the `assert` guards against). -/
inductive RefEntry : Type
  /-- A non-list element, e.g. a bare string. -/
  | strEntry : String → RefEntry
  /-- A proper reference sublist. -/
  | listEntry : List String → RefEntry
deriving DecidableEq, Repr

/-- Python `isinstance(ref_list, list)`. -/
def RefEntry.isList : RefEntry → Bool
  | .strEntry _ => false
  | .listEntry _ => true

/-- View a reference entry as the list Python would iterate. A bare string
iterates over its characters (each a one-character string); this branch is
unreachable in `_parse_inputs` because the shape assertion runs first. -/
def RefEntry.toList : RefEntry → List String
  | .strEntry s => s.data.map Char.toString
  | .listEntry l => l

/-- Result of `evaluate`: scores alone, or scores together with the resolved
candidate and reference graph strings when `return_graphs` is true. -/
inductive EvalResult : Type
  /-- Return value when `return_graphs=False`. -/
  | scoresOnly : List ℚ → EvalResult
  /-- Return value when `return_graphs=True`. -/
  | withGraphs : List ℚ → List String → List (List String) → EvalResult
deriving DecidableEq, Repr

/-- Scores component of an `evaluate` result. -/
def EvalResult.scores : EvalResult → List ℚ
  | .scoresOnly s => s
  | .withGraphs s _ _ => s

/-- The `Evaluator` instance: constructor-time configuration together with
its external collaborators, held read-only for the lifetime of the
instance (evaluator.py lines 17-25). `batch_size` and keyword options are
forwarded verbatim to the collaborators and do not affect the evaluator's
own control flow, so the collaborator signatures elide them. -/
structure Evaluator : Type where
  /-- The optional external scene-graph parser (`self.parser`); `parse` preserves input order and length per the interface contract but is otherwise arbitrary. -/
  parser : Option (List String → List String)
  /-- The `lemmatize` constructor flag. -/
  lemmatize : Bool
  /-- The external WordNet lemmatizer, applied token-wise. -/
  lemmatizer : String → String
  /-- The external graph-format detector `is_graph_format`. -/
  is_graph_format : String → Bool
  /-- The external symbol spacer `space_out_symbols_in_graph`. -/
  space_out_symbols_in_graph : String → String
  /-- The external `eval_set_match` scoring backend. -/
  eval_set_match : String → List String → ℚ
  /-- The external `eval_spice` scoring backend. -/
  eval_spice : String → List String → ℚ
  /-- The soft-SPICE pipeline (`accumulate_phrases` / `encode_phrases` / `compute_scores`), taking the batch size. -/
  soft_spice_fn : List String → List (List String) → ℕ → List ℚ

namespace Evaluator

/-- `_process_graphs` (evaluator.py lines 27-39): when lemmatization is
enabled, split on single spaces, lemmatize each token, and rejoin. -/
def _process_graphs (E : Evaluator) (graph_string : String) : String :=
  if E.lemmatize then
    " ".intercalate ((graph_string.splitOn " ").map E.lemmatizer)
  else
    graph_string

/-- `_all_items_are_graphs` (evaluator.py lines 105-112). -/
def _all_items_are_graphs (E : Evaluator) (items : List String) : Bool :=
  items.all E.is_graph_format

/-- `_flatten_nested_list` (evaluator.py lines 149-161): flatten and record
each sublist's length. -/
def _flatten_nested_list : List (List String) → List String × List ℕ
  | [] => ([], [])
  | sublist :: rest =>
      let p := _flatten_nested_list rest
      (sublist ++ p.1, sublist.length :: p.2)

/-- `_recover_nested_list_structure` (evaluator.py lines 163-175): slice the
flat list back into sublists of the recorded lengths. -/
def _recover_nested_list_structure : List String → List ℕ → List (List String)
  | _, [] => []
  | flat_list, length :: rest =>
      flat_list.take length :: _recover_nested_list_structure (flat_list.drop length) rest

/-- Shared tail of `_parse_if_needed` (evaluator.py lines 135-144): parse the
flat list when needed (raising `AttributeError` if `self.parser` is `None`),
then lemmatize if enabled, then space out symbols. Also returns the parser
call log. -/
def _parse_if_needed_core (E : Evaluator) (flat_list : List String) (needs_parsing : Bool) :
    Except EvalError (List String) × List (List String) :=
  let step : Except EvalError (List String) × List (List String) :=
    if needs_parsing then
      match E.parser with
      | none => (.error .attributeError, [])
      | some p => (.ok (p flat_list), [flat_list])
    else (.ok flat_list, [])
  match step with
  | (.error e, log) => (.error e, log)
  | (.ok parsed_flat_list, log) =>
      let parsed_flat_list :=
        if E.lemmatize then parsed_flat_list.map E._process_graphs else parsed_flat_list
      (.ok (parsed_flat_list.map E.space_out_symbols_in_graph), log)

/-- `_parse_if_needed` with `is_nested=False` (evaluator.py lines 114-147). -/
def _parse_if_needed_flat (E : Evaluator) (items : List String) :
    Except EvalError (List String) × List (List String) :=
  E._parse_if_needed_core items (!(items.all E.is_graph_format))

/-- `_parse_if_needed` with `is_nested=True` (evaluator.py lines 114-147):
the needs-parsing scan ranges over all items of all sublists, the nested
list is flattened before the single parser call, and the structure is
recovered afterwards. -/
def _parse_if_needed_nested (E : Evaluator) (items : List (List String)) :
    Except EvalError (List (List String)) × List (List String) :=
  let needs_parsing := !(items.flatten.all E.is_graph_format)
  let p := _flatten_nested_list items
  match E._parse_if_needed_core p.1 needs_parsing with
  | (.error e, log) => (.error e, log)
  | (.ok parsed_flat_list, log) =>
      (.ok (_recover_nested_list_structure parsed_flat_list p.2), log)

/-- `_parse_inputs` (evaluator.py lines 81-103): parser-availability check on
the candidates, shape assertion on the references, then normalization of
candidates followed by references. -/
def _parse_inputs (E : Evaluator) (candidates : List String) (references : List RefEntry) :
    Except EvalError (List String × List (List String)) × List (List String) :=
  if !(E._all_items_are_graphs candidates) && E.parser.isNone then
    (.error .configurationError, [])
  else if !(references.all RefEntry.isList) then
    (.error .shapeError, [])
  else
    match E._parse_if_needed_flat candidates with
    | (.error e, log) => (.error e, log)
    | (.ok parsed_candidates, log₁) =>
        match E._parse_if_needed_nested (references.map RefEntry.toList) with
        | (.error e, log₂) => (.error e, log₁ ++ log₂)
        | (.ok parsed_references, log₂) =>
            (.ok (parsed_candidates, parsed_references), log₁ ++ log₂)

/-- `_set_match_score` (evaluator.py lines 177-189): `zip` pairs candidates
with reference lists, truncating at the shorter. -/
def _set_match_score (E : Evaluator) (candidates : List String)
    (references : List (List String)) : List ℚ :=
  List.zipWith E.eval_set_match candidates references

/-- `_spice_score` (evaluator.py lines 191-203): `zip` pairs candidates with
reference lists, truncating at the shorter. -/
def _spice_score (E : Evaluator) (candidates : List String)
    (references : List (List String)) : List ℚ :=
  List.zipWith E.eval_spice candidates references

/-- `_soft_spice_score` (evaluator.py lines 205-217): delegates wholly to the
external soft-SPICE pipeline. -/
def _soft_spice_score (E : Evaluator) (candidates : List String)
    (references : List (List String)) (batch_size : ℕ) : List ℚ :=
  E.soft_spice_fn candidates references batch_size

/-- The method-dispatch dictionary lookup (evaluator.py lines 58-62), with
the `soft_spice`-only forwarding of `batch_size` (line 70) folded into a
uniform signature. -/
def method_function (E : Evaluator) (method : String) :
    Option (List String → List (List String) → ℕ → List ℚ) :=
  if method = "set_match" then some (fun c r _ => E._set_match_score c r)
  else if method = "spice" then some (fun c r _ => E._spice_score c r)
  else if method = "soft_spice" then some (fun c r b => E._soft_spice_score c r b)
  else none

/-- `evaluate` (evaluator.py lines 41-79): normalize inputs, dispatch on the
method name, score, scale by 100, and shape the return value. -/
def evaluate (E : Evaluator) (candidates : List String) (references : List RefEntry)
    (method : String) (batch_size : ℕ) (return_graphs : Bool) :
    Except EvalError EvalResult × List (List String) :=
  match E._parse_inputs candidates references with
  | (.error e, log) => (.error e, log)
  | (.ok (cands, refs), log) =>
      match E.method_function method with
      | none => (.error .unknownMethodError, log)
      | some f =>
          let scores := f cands refs batch_size
          let scores := scores.map (fun score => 100 * score)
          (.ok (if return_graphs then .withGraphs scores cands refs else .scoresOnly scores), log)

/-- The canonical form every string reaching a scorer has: token-wise
lemmatization (when enabled) followed by symbol spacing. -/
def canon (E : Evaluator) (s : String) : String :=
  E.space_out_symbols_in_graph (E._process_graphs s)

end Evaluator

/-- The flat component of `_flatten_nested_list` is the ordinary
concatenation of the sublists. -/
theorem flatten_fst_eq (X : List (List String)) :
    (Evaluator._flatten_nested_list X).1 = X.flatten := by
  induction X with
  | nil => rfl
  | cons sublist rest ih => simp [Evaluator._flatten_nested_list, ih]

/-- The recorded structure of `_flatten_nested_list` is the list of sublist
lengths. -/
theorem flatten_snd_eq (X : List (List String)) :
    (Evaluator._flatten_nested_list X).2 = X.map List.length := by
  induction X with
  | nil => rfl
  | cons sublist rest ih => simp [Evaluator._flatten_nested_list, ih]

/-- `_recover_nested_list_structure` produces one sublist per recorded
length. -/
theorem recover_length (flat_list : List String) (struct : List ℕ) :
    (Evaluator._recover_nested_list_structure flat_list struct).length = struct.length := by
  induction struct generalizing flat_list with
  | nil => rfl
  | cons n rest ih => simp [Evaluator._recover_nested_list_structure, ih]

/-- When lemmatization is off, the canonical form is just symbol spacing. -/
theorem map_canon_of_not_lemmatize (E : Evaluator) (h : E.lemmatize = false)
    (l : List String) : l.map E.canon = l.map E.space_out_symbols_in_graph := by
  have hc : E.canon = E.space_out_symbols_in_graph := by
    funext s
    simp [Evaluator.canon, Evaluator._process_graphs, h]
  rw [hc]

/-- Closed form of `_parse_if_needed_core`: parse the whole flat batch when
needed (logging the single call), raise `AttributeError` when parsing is
needed with no parser, and canonicalize every surviving string. -/
theorem parse_core_eq (E : Evaluator) (flat_list : List String) (needs_parsing : Bool) :
    E._parse_if_needed_core flat_list needs_parsing =
      (if needs_parsing then
        match E.parser with
        | none => (.error .attributeError, [])
        | some p => (.ok ((p flat_list).map E.canon), [flat_list])
      else (.ok (flat_list.map E.canon), [])) := by
  cases needs_parsing with
  | false =>
      cases hl : E.lemmatize with
      | false =>
          simp [Evaluator._parse_if_needed_core, hl, map_canon_of_not_lemmatize E hl]
      | true =>
          simp [Evaluator._parse_if_needed_core, hl, Evaluator.canon, List.map_map,
            Function.comp_def]
  | true =>
      cases hp : E.parser with
      | none => simp [Evaluator._parse_if_needed_core, hp]
      | some p =>
          cases hl : E.lemmatize with
          | false =>
              simp [Evaluator._parse_if_needed_core, hp, hl,
                map_canon_of_not_lemmatize E hl]
          | true =>
              simp [Evaluator._parse_if_needed_core, hp, hl, Evaluator.canon,
                List.map_map, Function.comp_def]

/-- When every item is already graph format, `_parse_if_needed` on a flat
collection only canonicalizes, with no parser call. -/
theorem flat_no_parse (E : Evaluator) (items : List String)
    (h : items.all E.is_graph_format = true) :
    E._parse_if_needed_flat items = (.ok (items.map E.canon), []) := by
  unfold Evaluator._parse_if_needed_flat
  rw [h, parse_core_eq]
  rfl

/-- When every item of every sublist is already graph format,
`_parse_if_needed` on a nested collection only canonicalizes each string in
place, with no parser call. -/
theorem nested_no_parse (E : Evaluator) (X : List (List String))
    (h : X.flatten.all E.is_graph_format = true) :
    E._parse_if_needed_nested X =
      (.ok (Evaluator._recover_nested_list_structure
        ((Evaluator._flatten_nested_list X).1.map E.canon)
        (Evaluator._flatten_nested_list X).2), []) := by
  simp only [Evaluator._parse_if_needed_nested, h, Bool.not_true, parse_core_eq,
    Bool.false_eq_true, if_false]

/-- A sample graph-format detector for concrete instances: everything except
the literal string "RAW" counts as graph format. -/
def sampleDetector (s : String) : Bool := s != "RAW"

/-- A concrete evaluator instance constructed with no parser. -/
def sampleNoParser : Evaluator where
  parser := none
  lemmatize := false
  lemmatizer := id
  is_graph_format := sampleDetector
  space_out_symbols_in_graph := id
  eval_set_match := fun _ _ => 1/2
  eval_spice := fun _ _ => 1
  soft_spice_fn := fun c _ _ => c.map (fun _ => 0)

/-- A concrete evaluator instance whose parser maps every input string to
the graph string "G". -/
def sampleWithParser : Evaluator :=
  { sampleNoParser with parser := some (fun l => l.map (fun _ => "G")) }

/-- C6: recovering the nested structure from the flattened list and the
recorded sublist lengths reproduces the original nested list exactly. -/
theorem flatten_recover_round_trip (X : List (List String)) :
    Evaluator._recover_nested_list_structure
      (Evaluator._flatten_nested_list X).1 (Evaluator._flatten_nested_list X).2 = X := by
  induction X with
  | nil => rfl
  | cons sublist rest ih =>
      simp only [Evaluator._flatten_nested_list, Evaluator._recover_nested_list_structure]
      rw [List.take_left, List.drop_left, ih]

/-- Claim C1 counterexample: with all candidates graph-format but a
non-graph-format reference string and no parser configured, `evaluate`
raises `AttributeError` (from `None.parse`), not `ConfigurationError` — so
"some supplied input string is not in graph format and no parser implies
ConfigurationError" is false as stated. -/
theorem C1_counterexample :
    sampleNoParser.parser = none ∧
    sampleNoParser.is_graph_format "RAW" = false ∧
    sampleNoParser.evaluate ["G", "G2"] [.listEntry ["RAW"]] "set_match" 4 false =
      (.error .attributeError, []) ∧
    EvalError.attributeError ≠ EvalError.configurationError := by
  refine ⟨rfl, rfl, ?_, by decide⟩
  rfl

/-- Claim C1 (amended): when some CANDIDATE string is not in graph format
and the evaluator was constructed with no parser, `evaluate` raises
`ConfigurationError` immediately, before any parsing or scoring work (the
parser call log is empty and no scorer output appears). -/
theorem C1_config_error_on_nongraph_candidates (E : Evaluator) (candidates : List String)
    (references : List RefEntry) (method : String) (batch_size : ℕ) (return_graphs : Bool)
    (h : E._all_items_are_graphs candidates = false) (hp : E.parser = none) :
    E.evaluate candidates references method batch_size return_graphs =
      (.error .configurationError, []) := by
  simp [Evaluator.evaluate, Evaluator._parse_inputs, h, hp]

/-- Claim C1 witness. -/
theorem C1_config_error_witness :
    sampleNoParser.evaluate ["RAW"] [.listEntry ["G"]] "spice" 4 false =
      (.error .configurationError, []) :=
  C1_config_error_on_nongraph_candidates sampleNoParser ["RAW"] [.listEntry ["G"]]
    "spice" 4 false (by decide) rfl

/-- Claim C9: the parser-availability check inspects only the candidates.
When all candidates are graph format, the parser is `None`, the references
are well-shaped lists, but some reference string is not graph format, the
`ConfigurationError` branch is not taken and the call instead fails with
`AttributeError` when invoking `parse` on the absent parser while
processing the references (the candidate collection having already been
processed without any parser call, hence the empty log). -/
theorem C9_parser_check_ignores_references (E : Evaluator) (candidates : List String)
    (references : List RefEntry) (method : String) (batch_size : ℕ) (return_graphs : Bool)
    (hc : candidates.all E.is_graph_format = true)
    (hp : E.parser = none)
    (hl : references.all RefEntry.isList = true)
    (hr : (references.map RefEntry.toList).flatten.all E.is_graph_format = false) :
    E.evaluate candidates references method batch_size return_graphs =
      (.error .attributeError, []) := by
  have hflat := flat_no_parse E candidates hc
  simp only [Evaluator.evaluate, Evaluator._parse_inputs, Evaluator._all_items_are_graphs,
    hc, hp, hl, Bool.not_true, Bool.false_and, Bool.false_eq_true, if_false, hflat]
  simp only [Evaluator._parse_if_needed_nested, hr, Bool.not_false, parse_core_eq,
    if_true, hp]
  rfl

/-- Claim C9 witness. -/
theorem C9_parser_check_ignores_references_witness :
    sampleNoParser.evaluate ["G"] [.listEntry ["RAW"]] "spice" 4 false =
      (.error .attributeError, []) :=
  C9_parser_check_ignores_references sampleNoParser ["G"] [.listEntry ["RAW"]]
    "spice" 4 false (by decide) rfl (by decide) (by decide)

/-- Claim C5 counterexample: when the candidates are non-graph-format and no
parser is configured, a malformed (non-sequence) reference element does NOT
produce the shape error — the parser-availability check fires first, so the
call fails with `ConfigurationError` instead of `ShapeError`. -/
theorem C5_counterexample :
    RefEntry.isList (.strEntry "x") = false ∧
    sampleNoParser.evaluate ["RAW"] [.strEntry "x"] "spice" 4 false =
      (.error .configurationError, []) ∧
    EvalError.configurationError ≠ EvalError.shapeError := by
  refine ⟨rfl, ?_, by decide⟩
  rfl

/-- Claim C5 (amended): provided the parser-availability check passes (the
candidates are all graph format, or a parser is configured), any call whose
references contain a non-sequence element fails with `ShapeError` before
any parsing or scoring work (empty parser call log, no scores). -/
theorem C5_shape_error_fails_fast (E : Evaluator) (candidates : List String)
    (references : List RefEntry) (method : String) (batch_size : ℕ) (return_graphs : Bool)
    (hok : E._all_items_are_graphs candidates = true ∨ E.parser.isSome = true)
    (hbad : references.all RefEntry.isList = false) :
    E.evaluate candidates references method batch_size return_graphs =
      (.error .shapeError, []) := by
  have hfirst : (!(E._all_items_are_graphs candidates) && E.parser.isNone) = false := by
    rcases hok with h | h
    · simp [h]
    · cases hp : E.parser with
      | none => rw [hp] at h; simp at h
      | some p => simp [hp]
  simp [Evaluator.evaluate, Evaluator._parse_inputs, hfirst, hbad]

/-- Claim C5 witness. -/
theorem C5_shape_error_fails_fast_witness :
    sampleNoParser.evaluate ["G"] [.strEntry "x"] "spice" 4 false =
      (.error .shapeError, []) :=
  C5_shape_error_fails_fast sampleNoParser ["G"] [.strEntry "x"] "spice" 4 false
    (Or.inl (by decide)) (by decide)

/-- Claim C4 counterexample: with an unknown method name but malformed
references, `evaluate` raises `ShapeError`, not `UnknownMethodError` — input
normalization runs before the method-name check, so "for every
candidates/references input an unknown method raises UnknownMethodError" is
false as stated. -/
theorem C4_counterexample :
    ("unknown" ≠ "set_match" ∧ "unknown" ≠ "spice" ∧ "unknown" ≠ "soft_spice") ∧
    sampleNoParser.evaluate [] [.strEntry "x"] "unknown" 4 false =
      (.error .shapeError, []) ∧
    EvalError.shapeError ≠ EvalError.unknownMethodError := by
  refine ⟨by decide, ?_, by decide⟩
  rfl

/-- Claim C4 (amended): whenever input normalization succeeds, a method name
outside {set_match, spice, soft_spice} makes `evaluate` fail with
`UnknownMethodError` before dispatching to any scorer, returning no partial
output (the error carries only the normalization parser log). -/
theorem C4_unknown_method_error (E : Evaluator) (candidates : List String)
    (references : List RefEntry) (method : String) (batch_size : ℕ) (return_graphs : Bool)
    (pc : List String) (pr : List (List String)) (log : List (List String))
    (hparse : E._parse_inputs candidates references = (.ok (pc, pr), log))
    (h₁ : method ≠ "set_match") (h₂ : method ≠ "spice") (h₃ : method ≠ "soft_spice") :
    E.evaluate candidates references method batch_size return_graphs =
      (.error .unknownMethodError, log) := by
  have hm : E.method_function method = none := by
    simp [Evaluator.method_function, h₁, h₂, h₃]
  simp [Evaluator.evaluate, hparse, hm]

/-- Claim C4 witness. -/
theorem C4_unknown_method_error_witness :
    sampleNoParser.evaluate ["G"] [.listEntry ["G"]] "unknown" 4 false =
      (.error .unknownMethodError, []) :=
  C4_unknown_method_error sampleNoParser ["G"] [.listEntry ["G"]] "unknown" 4 false
    ["G"] [["G"]] [] (by rfl) (by decide) (by decide) (by decide)

/-- Parser call log of `_parse_if_needed_core`: exactly one call, on the
whole flat batch, when parsing is needed and a parser exists. -/
theorem core_log (E : Evaluator) (flat_list : List String) (needs_parsing : Bool) :
    (E._parse_if_needed_core flat_list needs_parsing).2 =
      if needs_parsing && E.parser.isSome then [flat_list] else [] := by
  rw [parse_core_eq]
  cases needs_parsing <;> cases hp : E.parser <;> simp [hp]

/-- The nested wrapper forwards the core's parser call log unchanged. -/
theorem nested_log_eq_core_log (E : Evaluator) (X : List (List String)) :
    (E._parse_if_needed_nested X).2 =
      (E._parse_if_needed_core (Evaluator._flatten_nested_list X).1
        (!(X.flatten.all E.is_graph_format))).2 := by
  simp only [Evaluator._parse_if_needed_nested]
  rcases h : E._parse_if_needed_core (Evaluator._flatten_nested_list X).1
      (!(X.flatten.all E.is_graph_format)) with ⟨r, log⟩
  cases r <;> rfl

/-- Parser call log of `_parse_if_needed` on a flat collection. -/
theorem flat_log (E : Evaluator) (items : List String) :
    (E._parse_if_needed_flat items).2 =
      if (!(items.all E.is_graph_format)) && E.parser.isSome then [items] else [] := by
  simp only [Evaluator._parse_if_needed_flat, core_log]

/-- Parser call log of `_parse_if_needed` on a nested collection. -/
theorem nested_log (E : Evaluator) (X : List (List String)) :
    (E._parse_if_needed_nested X).2 =
      if (!(X.flatten.all E.is_graph_format)) && E.parser.isSome then [X.flatten] else [] := by
  rw [nested_log_eq_core_log, core_log, flatten_fst_eq]

/-- Claim C2 counterexample: on the mixed collection ["G", "RAW"] (where "G"
IS graph format), the parser is invoked on the WHOLE collection, including
the already-graph-format item "G" — so "parse is invoked only on the subset
of items that are not already graph-format" is false as stated. -/
theorem C2_counterexample :
    sampleWithParser.is_graph_format "G" = true ∧
    (sampleWithParser._parse_if_needed_flat ["G", "RAW"]).2 = [["G", "RAW"]] := by
  exact ⟨rfl, rfl⟩

/-- Claim C2 (amended): for each collection (flat candidates, or nested
references), the parser is invoked at most once, and only when some item of
the collection is not graph format — in particular never when every item is
graph format; when it is invoked, it receives the entire (flattened)
collection, graph-format items included. -/
theorem C2_parser_invocation (E : Evaluator) (items : List String) (X : List (List String)) :
    ((items.all E.is_graph_format = true → (E._parse_if_needed_flat items).2 = []) ∧
     ((E._parse_if_needed_flat items).2 ≠ [] →
        items.all E.is_graph_format = false ∧
        (E._parse_if_needed_flat items).2 = [items])) ∧
    ((X.flatten.all E.is_graph_format = true → (E._parse_if_needed_nested X).2 = []) ∧
     ((E._parse_if_needed_nested X).2 ≠ [] →
        X.flatten.all E.is_graph_format = false ∧
        (E._parse_if_needed_nested X).2 = [X.flatten])) := by
  have hf := flat_log E items
  have hn := nested_log E X
  refine ⟨⟨?_, ?_⟩, ?_, ?_⟩
  · intro h
    rw [hf]
    simp [h]
  · intro hne
    rw [hf] at hne ⊢
    cases h : items.all E.is_graph_format with
    | true => simp [h] at hne
    | false =>
        refine ⟨rfl, ?_⟩
        cases hp : E.parser with
        | none => simp [hp] at hne
        | some p => simp [hp]
  · intro h
    rw [hn]
    simp [h]
  · intro hne
    rw [hn] at hne ⊢
    cases h : X.flatten.all E.is_graph_format with
    | true => simp [h] at hne
    | false =>
        refine ⟨rfl, ?_⟩
        cases hp : E.parser with
        | none => simp [hp] at hne
        | some p => simp [hp]

/-- Claim C2 witness. -/
theorem C2_parser_invocation_witness :
    (sampleWithParser._parse_if_needed_flat ["G"]).2 = [] :=
  (C2_parser_invocation sampleWithParser ["G"] [["G"]]).1.1 (by decide)

/-- Normalization of all-graph-format inputs succeeds with no parser call,
canonicalizing candidates elementwise and references sublist-wise. -/
theorem parse_inputs_all_graphs (E : Evaluator) (candidates : List String)
    (references : List RefEntry)
    (hc : candidates.all E.is_graph_format = true)
    (hl : references.all RefEntry.isList = true)
    (hr : (references.map RefEntry.toList).flatten.all E.is_graph_format = true) :
    E._parse_inputs candidates references =
      (.ok (candidates.map E.canon,
        Evaluator._recover_nested_list_structure
          ((Evaluator._flatten_nested_list (references.map RefEntry.toList)).1.map E.canon)
          (Evaluator._flatten_nested_list (references.map RefEntry.toList)).2), []) := by
  have hflat := flat_no_parse E candidates hc
  have hnested := nested_no_parse E (references.map RefEntry.toList) hr
  simp only [Evaluator._parse_inputs, Evaluator._all_items_are_graphs, hc, hl,
    Bool.not_true, Bool.false_and, Bool.false_eq_true, if_false, hflat, hnested,
    List.nil_append]

/-- When normalization succeeds and a method is selected, `evaluate` returns
the selected scorer's output rescaled by 100, shaped by `return_graphs`. -/
theorem evaluate_ok_scores (E : Evaluator) (candidates : List String)
    (references : List RefEntry) (method : String) (batch_size : ℕ) (return_graphs : Bool)
    (pc : List String) (pr : List (List String)) (log : List (List String))
    (f : List String → List (List String) → ℕ → List ℚ)
    (hpi : E._parse_inputs candidates references = (.ok (pc, pr), log))
    (hmf : E.method_function method = some f) :
    ∃ res, E.evaluate candidates references method batch_size return_graphs =
        (.ok res, log) ∧
      res.scores = (f pc pr batch_size).map (fun score => 100 * score) := by
  refine ⟨if return_graphs then
      .withGraphs ((f pc pr batch_size).map (fun score => 100 * score)) pc pr
    else .scoresOnly ((f pc pr batch_size).map (fun score => 100 * score)), ?_, ?_⟩
  · simp only [Evaluator.evaluate, hpi, hmf]
  · cases return_graphs <;> rfl

/-- Claim C3: when the length precondition is violated (all inputs graph
format, method set_match or spice), `evaluate` does not raise; it returns a
scores list of length `min(len(candidates), len(references))`, silently
ignoring excess candidates or reference sublists. -/
theorem C3_zip_truncates_to_min (E : Evaluator) (candidates : List String)
    (references : List RefEntry) (batch_size : ℕ) (return_graphs : Bool) (method : String)
    (hm : method = "set_match" ∨ method = "spice")
    (hc : candidates.all E.is_graph_format = true)
    (hl : references.all RefEntry.isList = true)
    (hr : (references.map RefEntry.toList).flatten.all E.is_graph_format = true) :
    ∃ res log, E.evaluate candidates references method batch_size return_graphs =
        (.ok res, log) ∧
      res.scores.length = min candidates.length references.length ∧
      log = [] := by
  have hpi := parse_inputs_all_graphs E candidates references hc hl hr
  have hpr_len :
      (Evaluator._recover_nested_list_structure
        ((Evaluator._flatten_nested_list (references.map RefEntry.toList)).1.map E.canon)
        (Evaluator._flatten_nested_list (references.map RefEntry.toList)).2).length =
      references.length := by
    rw [recover_length, flatten_snd_eq]
    simp
  rcases hm with rfl | rfl
  · obtain ⟨res, heval, hscores⟩ := evaluate_ok_scores E candidates references
      "set_match" batch_size return_graphs _ _ []
      (fun c r _ => E._set_match_score c r) hpi rfl
    refine ⟨res, [], heval, ?_, rfl⟩
    rw [hscores]
    simp [Evaluator._set_match_score, hpr_len]
  · obtain ⟨res, heval, hscores⟩ := evaluate_ok_scores E candidates references
      "spice" batch_size return_graphs _ _ []
      (fun c r _ => E._spice_score c r) hpi rfl
    refine ⟨res, [], heval, ?_, rfl⟩
    rw [hscores]
    simp [Evaluator._spice_score, hpr_len]

/-- Claim C3 witness: two candidates against one reference sublist yield one
score, with no error raised. -/
theorem C3_zip_truncates_to_min_witness :
    ∃ res log, sampleNoParser.evaluate ["G", "G2"] [.listEntry ["G"]] "set_match" 4 false =
        (.ok res, log) ∧
      res.scores.length = min (["G", "G2"] : List String).length
        ([RefEntry.listEntry ["G"]] : List RefEntry).length ∧
      log = [] :=
  C3_zip_truncates_to_min sampleNoParser ["G", "G2"] [.listEntry ["G"]] 4 false
    "set_match" (Or.inl rfl) (by decide) (by decide) (by decide)

/-- Claim C7: every successful `evaluate` call returns exactly 100 times the
unscaled output of the selected scorer, positionally; if the scorer's
outputs lie in [0,1], every returned score lies in [0,100]. -/
theorem C7_scores_scaled_by_100 (E : Evaluator) (candidates : List String)
    (references : List RefEntry) (method : String) (batch_size : ℕ) (return_graphs : Bool)
    (res : EvalResult) (log : List (List String))
    (h : E.evaluate candidates references method batch_size return_graphs = (.ok res, log)) :
    ∃ pc pr f, E._parse_inputs candidates references = (.ok (pc, pr), log) ∧
      E.method_function method = some f ∧
      res.scores = (f pc pr batch_size).map (fun score => 100 * score) ∧
      ((∀ s ∈ f pc pr batch_size, 0 ≤ s ∧ s ≤ 1) →
        ∀ s ∈ res.scores, 0 ≤ s ∧ s ≤ 100) := by
  unfold Evaluator.evaluate at h
  rcases hpi : E._parse_inputs candidates references with ⟨r, lg⟩
  rw [hpi] at h
  cases r with
  | error e => simp at h
  | ok pcr =>
      rcases pcr with ⟨pc, pr⟩
      cases hmf : E.method_function method with
      | none => rw [hmf] at h; simp at h
      | some f =>
          rw [hmf] at h
          simp only [Prod.mk.injEq, Except.ok.injEq] at h
          obtain ⟨hres, hlg⟩ := h
          subst hlg
          have hsc : res.scores = (f pc pr batch_size).map (fun score => 100 * score) := by
            rw [← hres]
            cases return_graphs <;> rfl
          refine ⟨pc, pr, f, rfl, rfl, hsc, ?_⟩
          intro hb s hs
          rw [hsc] at hs
          obtain ⟨s₀, hs₀, rfl⟩ := List.mem_map.mp hs
          obtain ⟨h0, h1⟩ := hb s₀ hs₀
          constructor
          · positivity
          · calc (100 : ℚ) * s₀ ≤ 100 * 1 := mul_le_mul_of_nonneg_left h1 (by norm_num)
              _ = 100 := by norm_num

/-- Claim C7 witness: with a spice backend returning the constant 1, the
returned score is 100 times 1. -/
theorem C7_scores_scaled_by_100_witness :
    ∃ pc pr f, sampleNoParser._parse_inputs ["G"] [.listEntry ["G"]] = (.ok (pc, pr), []) ∧
      sampleNoParser.method_function "spice" = some f ∧
      (EvalResult.scoresOnly [(100 : ℚ) * 1]).scores =
        (f pc pr 4).map (fun score => 100 * score) ∧
      ((∀ s ∈ f pc pr 4, 0 ≤ s ∧ s ≤ 1) →
        ∀ s ∈ (EvalResult.scoresOnly [(100 : ℚ) * 1]).scores, 0 ≤ s ∧ s ≤ 100) :=
  C7_scores_scaled_by_100 sampleNoParser ["G"] [.listEntry ["G"]] "spice" 4 false
    (EvalResult.scoresOnly [(100 : ℚ) * 1]) [] rfl

/-- Claim C8: every string handed onward by `_parse_if_needed` — whether it
was already graph format or was produced by the parser — is the
canonicalization of its source string: token-wise lemmatization over
whitespace-delimited tokens (when enabled) followed by symbol spacing, so
pre-parsed and freshly-parsed strings reach the scorer in identical
canonical form. -/
theorem C8_canonical_form (E : Evaluator) (flat_list : List String) (needs_parsing : Bool)
    (out : List String) (log : List (List String))
    (h : E._parse_if_needed_core flat_list needs_parsing = (.ok out, log)) :
    (∃ base, (base = flat_list ∨ ∃ p, E.parser = some p ∧ base = p flat_list) ∧
      out = base.map E.canon) ∧
    (∀ s, E.canon s = E.space_out_symbols_in_graph (E._process_graphs s)) ∧
    (∀ s, E.lemmatize = true →
      E._process_graphs s = " ".intercalate ((s.splitOn " ").map E.lemmatizer)) := by
  refine ⟨?_, fun s => rfl, fun s hl => by simp [Evaluator._process_graphs, hl]⟩
  rw [parse_core_eq] at h
  cases needs_parsing with
  | false =>
      simp only [Bool.false_eq_true, if_false, Prod.mk.injEq, Except.ok.injEq] at h
      exact ⟨flat_list, Or.inl rfl, h.1.symm⟩
  | true =>
      cases hp : E.parser with
      | none => rw [hp] at h; simp at h
      | some p =>
          rw [hp] at h
          simp only [if_true, Prod.mk.injEq, Except.ok.injEq] at h
          refine ⟨p flat_list, Or.inr ⟨p, ?_, rfl⟩, h.1.symm⟩
          rfl

/-- Claim C8 witness: a freshly-parsed string reaches the scorer as the
canonicalization of the parser's output. -/
theorem C8_canonical_form_witness :
    ∃ base, (base = ["RAW"] ∨
        ∃ p, sampleWithParser.parser = some p ∧ base = p ["RAW"]) ∧
      ["G"] = base.map sampleWithParser.canon :=
  (C8_canonical_form sampleWithParser ["RAW"] true ["G"] [["RAW"]] rfl).1
